import Mathlib

/-!
# VoiceGuardian — verification of the moderation / transcription core

Shallow embedding of the decision core of the VoiceGuardian repository:
the keyword moderation engine (`src/lib/moderate.ts`), the transcription
orchestrator (`src/lib/transcribe.ts`, the smart-transcribe handler of the
waveform component), the flag projection of `src/App.tsx`, and the zustand
audio store (`src/store/useAudioStore.ts`).

Strings are modelled by Lean `String` / `List Char`; JavaScript numbers that
carry timing or confidence information are modelled by `ℚ`.
-/

namespace VoiceGuardian

/-! ## JavaScript string primitives -/

/-- Whitespace as matched by the JavaScript `\s` class (ASCII part plus NBSP),
used by `transcript.split(/\s+/)` and `String.prototype.trim`. -/
def isJsWs (c : Char) : Bool :=
  c = ' ' || c = '\t' || c = '\n' || c = '\r' || c = '\x0b' || c = '\x0c' || c = ' '

/-- ASCII-alphabetic test, the `[^a-zA-Z]` class of `moderate.ts` line 35. -/
def isAsciiAlpha (c : Char) : Bool :=
  ('a' ≤ c && c ≤ 'z') || ('A' ≤ c && c ≤ 'Z')

/-- ASCII lower-casing of one character (`String.prototype.toLowerCase`). -/
def lowerChar (c : Char) : Char :=
  if 'A' ≤ c && c ≤ 'Z' then Char.ofNat (c.toNat + 32) else c

/-- Lower-case a character list. -/
def lowerList (l : List Char) : List Char := l.map lowerChar

/-- JS `s.length` (code units; characters in this model). -/
def strLen (s : String) : Nat := s.toList.length

/-- JS `transcript.split(/\s+/)` on a character list: the pieces between maximal
whitespace runs, including an empty piece when the string starts or ends with
whitespace, and `[""]` for the empty string — JavaScript `split` semantics. -/
def splitWs : List Char → List (List Char)
  | [] => [[]]
  | [c] => if isJsWs c then [[], []] else [[c]]
  | c :: d :: cs =>
    if isJsWs c then
      if isJsWs d then splitWs (d :: cs) else [] :: splitWs (d :: cs)
    else
      match splitWs (d :: cs) with
      | t :: rest => (c :: t) :: rest
      | [] => [[c]]

/-- The token list of a transcript: `transcript.split(/\s+/)`. -/
def tokens (s : String) : List String := (splitWs s.toList).map String.mk

/-- Token cleaning, `word.replace(/[^a-zA-Z]/g, '').toLowerCase()` (`moderate.ts` line 35). -/
def cleanWord (w : String) : String :=
  String.mk ((w.toList.filter isAsciiAlpha).map lowerChar)

/-- JS `String.prototype.trim` — strip JS whitespace from both ends. -/
def jsTrim (s : String) : String :=
  String.mk ((((s.toList.dropWhile isJsWs).reverse).dropWhile isJsWs).reverse)

/-- JS `Array.prototype.join(' ')`. -/
def joinSpace (l : List String) : String := String.intercalate " " l

/-! ## Keyword lexicon (`moderate.ts` lines 15–24) -/

/-- The static keyword list `TOXIC_KEYWORDS` of `moderate.ts`. -/
def TOXIC_KEYWORDS : List String :=
  ["hate", "kill", "stupid", "idiot", "dumb", "fool", "loser", "darn", "hell",
   "crap", "shit", "fuck", "bitch", "asshole", "bastard", "damn", "jerk", "suck",
   "moron", "trash", "ugly", "disgusting", "nonsense", "retard", "scum", "creep",
   "psycho", "lunatic", "slut", "whore", "cunt", "prick", "piss", "screw", "twat",
   "dick", "cock", "jackass", "pig", "pervert"]

/-- The set `new Set(TOXIC_KEYWORDS.map(word => word.toLowerCase()))`. -/
def toxicKeywordSet : List String :=
  TOXIC_KEYWORDS.map (fun w => String.mk (lowerList w.toList))

/-- The lexicon lookup performed at `moderate.ts` lines 37–47: a cleaned token
present in the set is flagged with the (single) label `"warning"`; any other
token is not flagged. -/
def keywordLabel (tok : String) : Option String :=
  if tok ∈ toxicKeywordSet then some "warning" else none

/-! ## Moderation engine (`moderateWithKeywords`, `moderate.ts` lines 27–52) -/

/-- A word timestamp `{ word, start, end }` (field `end` is spelled `stop`). -/
structure TranscriptionWord where
  word : String
  start : ℚ
  stop : ℚ
deriving DecidableEq, Repr

/-- A flagged span as produced by `moderateWithKeywords`
(`{ word, start, end, label }`; field `end` is spelled `stop`). -/
structure KeywordSpan where
  word : String
  start : ℚ
  stop : ℚ
  label : String
deriving DecidableEq, Repr

/-- Lookup `wordTimestamps?.[index]`: `none` when the argument is absent or the index
is out of range. -/
def tsLookup (ts? : Option (List TranscriptionWord)) (i : Nat) :
    Option TranscriptionWord :=
  ts?.bind (fun l => l.get? i)

/-- Embeds `wordTimestamps?.[index]?.start ?? index` (`moderate.ts` line 39). -/
def spanStart (ts? : Option (List TranscriptionWord)) (i : Nat) : ℚ :=
  match tsLookup ts? i with
  | some e => e.start
  | none => (i : ℚ)

/-- Embeds `wordTimestamps?.[index]?.end ?? index + 1` (`moderate.ts` line 40).
The synthetic value is written as the cast of the natural number `i + 1`. -/
def spanStop (ts? : Option (List TranscriptionWord)) (i : Nat) : ℚ :=
  match tsLookup ts? i with
  | some e => e.stop
  | none => ((i + 1 : Nat) : ℚ)

/-- The `words.forEach((word, index) => ...)` loop of `moderateWithKeywords`,
with `i` the index of the first remaining token. -/
def moderateAux (ts? : Option (List TranscriptionWord)) :
    Nat → List String → List KeywordSpan
  | _, [] => []
  | i, w :: ws =>
    if cleanWord w ∈ toxicKeywordSet then
      ⟨w, spanStart ts? i, spanStop ts? i, "warning"⟩ :: moderateAux ts? (i + 1) ws
    else
      moderateAux ts? (i + 1) ws

/-- Embeds `moderateWithKeywords(transcript, wordTimestamps?)`
(`moderate.ts` lines 27–52). -/
def moderateWithKeywords (transcript : String)
    (ts? : Option (List TranscriptionWord)) : List KeywordSpan :=
  moderateAux ts? 0 (tokens transcript)

/-- A flagged word in the legacy result shape
(`{ word, start, end, label, score, context }`; field `end` is spelled `stop`). -/
structure FlaggedWord where
  word : String
  start : ℚ
  stop : ℚ
  label : String
  score : ℚ
  context : String
deriving DecidableEq, Repr

/-- The fixed confidence `0.8` attached by the legacy keyword fallback
(`moderate.ts` line 152), written as the normalized rational `4/5` so that it
evaluates in the kernel; `legacyKeywordScore_eq` ties it to the literal. -/
def legacyKeywordScore : ℚ := ⟨4, 5, by decide, by decide⟩

/-- The keyword fallback of the legacy (array-of-words) path of
`moderateTranscript` (`moderate.ts` lines 142–154): rebuild the transcript by
joining the words with spaces, run `moderateWithKeywords` against it with the
words themselves as timestamps, and attach the fixed score `0.8` and the whole
transcript as `context`. -/
def legacyKeywordFallback (ws : List TranscriptionWord) : List FlaggedWord :=
  let transcript := joinSpace (ws.map TranscriptionWord.word)
  (moderateWithKeywords transcript (some ws)).map fun f =>
    ⟨f.word, f.start, f.stop, f.label, legacyKeywordScore, transcript⟩

/-! ## Transcription orchestration (`transcribe.ts`) -/

/-- The `TranscriptionResult` of `transcribe.ts`: `{ text, words }`. -/
structure TranscriptionResult where
  text : String
  words : List TranscriptionWord
deriving DecidableEq, Repr

/-- Embeds `transcribeAudio(blob, useServer)` (`transcribe.ts` lines 153–175), with
the outcomes of the two backends supplied as parameters: on `useServer`, a
server success is wrapped as `{ text, words: [] }` and a server failure falls
back silently to the browser (local-model) result; with `useServer = false`
the browser result is returned directly. -/
def transcribeAudio (useServer : Bool) (serverRes : Except String String)
    (browserRes : Except String TranscriptionResult) :
    Except String TranscriptionResult :=
  if useServer then
    match serverRes with
    | .ok text => .ok ⟨text, []⟩
    | .error _ => browserRes
  else browserRes

/-- The mode selection of `handleSmartTranscribe` (part_005 lines 172–187):
start from the two preference flags, force server when both are set and when
neither is set; the result is `true` when the server mode is chosen. -/
def smartModeIsServer (prefServer prefBrowser : Bool) : Bool :=
  let useServer := if prefServer && prefBrowser then true else prefServer
  let useServer := if !useServer && !prefBrowser then true else useServer
  useServer

/-- The environment of one `handleSmartTranscribe` run: the stored backend
preferences, the outcome each backend would produce when called, and the
answers the user would give to the two `confirm` dialogs. -/
structure SmartEnv where
  prefServer : Bool
  prefBrowser : Bool
  serverRes : Except String String
  browserRes : Except String TranscriptionResult
  browserRetryRes : Except String TranscriptionResult
  tryBrowserAns : Bool
  useWebSpeechAns : Bool
  webSpeechRes : Except String String
deriving Repr

/-- What a `handleSmartTranscribe` run left behind: the transcription state
and whether the live-microphone (Web Speech) backend was started. -/
structure SmartOutcome where
  transcription : Option TranscriptionResult
  webSpeechInvoked : Bool
deriving DecidableEq, Repr

/-- Embeds `handleSmartTranscribe` (part_005 lines 162–284): call `transcribeAudio`
in the selected mode; on failure in server mode ask (`confirm`) before
retrying via the browser path, and ask again before falling back to live
speech; on failure in browser mode ask before falling back to live speech.
The Web Speech result is stored as `{ text, words: [] }`
(`handleWebSpeechTranscribe`, part_005 lines 371–397). -/
def handleSmartTranscribe (env : SmartEnv) : SmartOutcome :=
  let isServer := smartModeIsServer env.prefServer env.prefBrowser
  match transcribeAudio isServer env.serverRes env.browserRes with
  | .ok r => ⟨some r, false⟩
  | .error _ =>
    if isServer then
      if env.tryBrowserAns then
        match transcribeAudio false env.serverRes env.browserRetryRes with
        | .ok r => ⟨some r, false⟩
        | .error _ =>
          if env.useWebSpeechAns then
            match env.webSpeechRes with
            | .ok t => ⟨some ⟨t, []⟩, true⟩
            | .error _ => ⟨none, true⟩
          else ⟨none, false⟩
      else ⟨none, false⟩
    else
      if env.useWebSpeechAns then
        match env.webSpeechRes with
        | .ok t => ⟨some ⟨t, []⟩, true⟩
        | .error _ => ⟨none, true⟩
      else ⟨none, false⟩

/-! ## Live-microphone recognition (`transcribeWithWebSpeech`) -/

/-- The wall-clock cap passed to `setTimeout` in `transcribeWithWebSpeech`
(`transcribe.ts` line 267): 30 000 milliseconds. -/
def webSpeechTimeoutMs : Nat := 30000

/-- The rejection message of the empty-transcript branch of `onend`
(`transcribe.ts` line 254). -/
def webSpeechNoSpeechMsg : String :=
  "No speech was detected. Please try speaking clearly and ensure your microphone is working."

/-- The `onend` finalization of `transcribeWithWebSpeech` (`transcribe.ts`
lines 247–256): resolve with the trimmed accumulated final transcript when it
is non-empty, otherwise reject with the no-speech error. This is the handler
that runs when the 30-second timer force-stops the recognizer. -/
def webSpeechFinalize (finalTranscript : String) : Except String String :=
  if jsTrim finalTranscript ≠ "" then .ok (jsTrim finalTranscript)
  else .error webSpeechNoSpeechMsg

/-! ## Short-transcript rejection (`App.tsx` lines 77–80) -/

/-- Whether `processFile` forwards a successful transcription to the
Moderation Engine: it throws `"No speech detected..."` when
`!transcriptionResult.text || transcriptionResult.text.trim().length < 3`. -/
def forwardedToModeration (text : String) : Bool :=
  !(text == "" || strLen (jsTrim text) < 3)

/-! ## Flag projection (`App.tsx` lines 90–124) -/

/-- JS `haystack.indexOf(needle)` on character lists: index of the first
occurrence, or `none`. -/
def idxOf (pat : List Char) : List Char → Option Nat
  | [] => if pat.isEmpty then some 0 else none
  | c :: cs =>
    if pat.isPrefixOf (c :: cs) then some 0 else (idxOf pat cs).map (· + 1)

/-- JS `indexOf` returning `-1` when absent, as an integer. -/
def jsIndexOf (hay pat : List Char) : Int :=
  match idxOf pat hay with
  | some n => (n : Int)
  | none => -1

/-- JS `String.prototype.substring(a, b)`: clamp both arguments to
`[0, length]`, swap them when out of order, and slice. -/
def jsSubstring (s : String) (a b : Int) : String :=
  let l := s.toList
  let n : Int := (l.length : Int)
  let a' := min (max a 0) n
  let b' := min (max b 0) n
  let lo := min a' b'
  let hi := max a' b'
  String.mk ((l.drop lo.toNat).take (hi - lo).toNat)

/-- The lookup `transcriptionResult.text.toLowerCase().indexOf(fw.word.toLowerCase())`
(`App.tsx` line 92). -/
def ctxWordIndex (text word : String) : Int :=
  jsIndexOf (lowerList text.toList) (lowerList word.toList)

/-- Embeds `Math.max(0, wordIndex - 30)` (`App.tsx` line 93). -/
def ctxStart (text word : String) : Int :=
  max 0 (ctxWordIndex text word - 30)

/-- Embeds `Math.min(text.length, wordIndex + word.length + 30)` (`App.tsx` line 94). -/
def ctxEnd (text word : String) : Int :=
  min (strLen text : Int) (ctxWordIndex text word + (strLen word : Int) + 30)

/-- The context snippet of the projected flag record (`App.tsx` line 95):
`text.substring(contextStart, contextEnd).trim()`. It depends only on the
transcript and the raw flagged word — the first textual occurrence is used
regardless of the span's own position. -/
def projSnippet (text word : String) : String :=
  jsTrim (jsSubstring text (ctxStart text word) (ctxEnd text word))

/-! ## Audio store (`useAudioStore.ts` lines 54–162) -/

/-- The `AudioFileData` record with the fields relevant to the selection invariant. -/
structure AudioFileData where
  id : String
  name : String
  url : Option String
  flaggedWords : Option (List FlaggedWord)
deriving DecidableEq, Repr

/-- The state held by `useAudioStore` (settings omitted — no store operation
of the claim couples them to file selection). -/
structure AudioStoreState where
  audioFiles : List AudioFileData
  selectedFile : Option AudioFileData
  selectedFileId : Option String
deriving DecidableEq, Repr

/-- The store's initial state. -/
def initialStoreState : AudioStoreState := ⟨[], none, none⟩

/-- Embeds `addAudioFile` (lines 63–75): attach a fresh object URL, prepend, and
auto-select the new file. -/
def addAudioFile (newUrl : String) (file : AudioFileData)
    (s : AudioStoreState) : AudioStoreState :=
  let fileWithUrl := { file with url := some newUrl }
  { audioFiles := fileWithUrl :: s.audioFiles,
    selectedFile := some fileWithUrl,
    selectedFileId := some fileWithUrl.id }

/-- Embeds `removeAudioFile` (lines 77–91): filter the file out; clear the selection
only when the removed id is the selected file's id. -/
def removeAudioFile (i : String) (s : AudioStoreState) : AudioStoreState :=
  let isSelected := match s.selectedFile with
    | some f => f.id == i
    | none => false
  { audioFiles := s.audioFiles.filter (fun f => f.id ≠ i),
    selectedFile := if isSelected then none else s.selectedFile,
    selectedFileId := if isSelected then none else s.selectedFileId }

/-- Embeds `selectFile` (lines 93–98): `selectedFileId: file?.id || null` — note the
JS `||`, which maps an empty-string id to `null`. -/
def selectFile (file? : Option AudioFileData) (s : AudioStoreState) :
    AudioStoreState :=
  { s with
    selectedFile := file?,
    selectedFileId := match file? with
      | some f => if f.id = "" then none else some f.id
      | none => none }

/-- Embeds `setSelectedFileId` (lines 100–107): `const file = id ?
audioFiles.find(f => f.id === id) : null` — the raw argument is stored as
`selectedFileId`, while `selectedFile` comes from the lookup (or `null`). -/
def setSelectedFileId (id? : Option String) (s : AudioStoreState) :
    AudioStoreState :=
  let file? := match id? with
    | some i => if i = "" then none else s.audioFiles.find? (fun f => f.id = i)
    | none => none
  { s with selectedFileId := id?, selectedFile := file? }

/-- Embeds `updateFileFlags` (lines 114–123): rewrite the flags of the matching file
in the list and, when it is selected, in the selected-file copy. -/
def updateFileFlags (i : String) (fw : List FlaggedWord)
    (s : AudioStoreState) : AudioStoreState :=
  { s with
    audioFiles := s.audioFiles.map
      (fun f => if f.id = i then { f with flaggedWords := some fw } else f),
    selectedFile := match s.selectedFile with
      | some f => if f.id = i then some { f with flaggedWords := some fw } else some f
      | none => none }

/-- Embeds `clearFiles` (lines 125–140). -/
def clearFiles (s : AudioStoreState) : AudioStoreState :=
  { s with audioFiles := [], selectedFile := none, selectedFileId := none }

/-- The selection-consistency invariant of claim C10: `selectedFileId` is the
id of `selectedFile`, and both are `none` when no file is selected. -/
def selectionConsistent (s : AudioStoreState) : Prop :=
  s.selectedFileId = s.selectedFile.map AudioFileData.id

instance (s : AudioStoreState) : Decidable (selectionConsistent s) := by
  unfold selectionConsistent; infer_instance

/-- The position-and-severity part of a keyword span (everything except the
raw matched word). -/
def spanShape (f : KeywordSpan) : ℚ × ℚ × String := (f.start, f.stop, f.label)

/-! ## Formalizations of the spec's words, for comparison with the code -/

/-- The three-tier lookup claimed by the spec (§4.1), over a choice of
high-severity and medium-severity subsets: high ⇒ `toxic`; else medium ⇒
`warning`; else full flagged set ⇒ `profanity`; else not flagged. Stated from
the spec's words, to be compared with `keywordLabel`. -/
def specThreeTierLabel (high med : List String) (tok : String) : Option String :=
  if tok ∈ high then some "toxic"
  else if tok ∈ med then some "warning"
  else if tok ∈ toxicKeywordSet then some "profanity"
  else none

/-- The number of non-whitespace characters of a transcript — the quantity
named by the spec's short-transcript rule ("shorter than 3 non-whitespace
characters"). Stated from the spec's words, to be compared with
`forwardedToModeration`. -/
def specCountNonWs (text : String) : Nat :=
  (text.toList.filter (fun c => !(isJsWs c))).length

/-- The ±30-character slice of the transcript around the first textual
occurrence of the raw token — the `context` value claimed by the spec (§4.2
step 5). Stated from the spec's words, to be compared with the `context`
field the code actually attaches. -/
def specContextSlice (text word : String) : String :=
  let i := jsIndexOf text.toList word.toList
  jsSubstring text (i - 30) (i + (strLen word : Int) + 30)

/-! ## Helper lemmas -/

theorem legacyKeywordScore_eq : legacyKeywordScore = 0.8 := by
  have h : ((0.8 : ℚ)).num = 4 ∧ ((0.8 : ℚ)).den = 5 := by norm_num
  exact (Rat.ext h.1 h.2).symm

theorem mem_moderateAux (ts? : Option (List TranscriptionWord))
    (ws : List String) :
    ∀ (n i : Nat) (w : String), ws.get? i = some w →
      cleanWord w ∈ toxicKeywordSet →
      (⟨w, spanStart ts? (n + i), spanStop ts? (n + i), "warning"⟩ : KeywordSpan) ∈
        moderateAux ts? n ws := by
  induction ws with
  | nil => intro n i w hw _; simp at hw
  | cons v vs ih =>
    intro n i w hw hf
    cases i with
    | zero =>
      rw [List.get?] at hw
      injection hw with hw
      subst hw
      unfold moderateAux
      rw [if_pos hf]
      exact List.mem_cons_self _ _
    | succ j =>
      rw [List.get?] at hw
      have harr : n + (j + 1) = (n + 1) + j := by omega
      rw [harr]
      unfold moderateAux
      by_cases hm : cleanWord v ∈ toxicKeywordSet
      · rw [if_pos hm]; exact List.mem_cons_of_mem _ (ih (n + 1) j w hw hf)
      · rw [if_neg hm]; exact ih (n + 1) j w hw hf

theorem moderateAux_mem_label (ts? : Option (List TranscriptionWord))
    (ws : List String) :
    ∀ (n : Nat) (f : KeywordSpan), f ∈ moderateAux ts? n ws →
      f.label = "warning" ∧ cleanWord f.word ∈ toxicKeywordSet := by
  induction ws with
  | nil => intro n f hf; simp [moderateAux] at hf
  | cons v vs ih =>
    intro n f hf
    unfold moderateAux at hf
    by_cases hm : cleanWord v ∈ toxicKeywordSet
    · rw [if_pos hm] at hf
      rcases List.mem_cons.mp hf with rfl | hf'
      · exact ⟨rfl, hm⟩
      · exact ih _ _ hf'
    · rw [if_neg hm] at hf; exact ih _ _ hf

theorem moderateAux_eq_nil (ts? : Option (List TranscriptionWord))
    (ws : List String) :
    ∀ n : Nat, (∀ w ∈ ws, cleanWord w ∉ toxicKeywordSet) →
      moderateAux ts? n ws = [] := by
  induction ws with
  | nil => intro n _; rfl
  | cons v vs ih =>
    intro n h
    unfold moderateAux
    rw [if_neg (h v (List.mem_cons_self _ _))]
    exact ih (n + 1) (fun w hw => h w (List.mem_cons_of_mem _ hw))

theorem moderateAux_map_shape (ts? : Option (List TranscriptionWord)) :
    ∀ (ws1 ws2 : List String) (n : Nat),
      ws1.map cleanWord = ws2.map cleanWord →
      (moderateAux ts? n ws1).map spanShape =
        (moderateAux ts? n ws2).map spanShape := by
  intro ws1
  induction ws1 with
  | nil =>
    intro ws2 n h
    cases ws2 with
    | nil => rfl
    | cons _ _ => simp at h
  | cons v vs ih =>
    intro ws2 n h
    cases ws2 with
    | nil => simp at h
    | cons u us =>
      simp only [List.map_cons, List.cons.injEq] at h
      obtain ⟨hv, hus⟩ := h
      unfold moderateAux
      by_cases hm : cleanWord v ∈ toxicKeywordSet
      · rw [if_pos hm, if_pos (hv ▸ hm)]
        simp only [List.map_cons, spanShape]
        exact congrArg _ (ih us (n + 1) hus)
      · rw [if_neg hm, if_neg (hv ▸ hm)]
        exact ih us (n + 1) hus

theorem idxOf_le (pat : List Char) :
    ∀ (l : List Char) (n : Nat), idxOf pat l = some n →
      n + pat.length ≤ l.length := by
  intro l
  induction l with
  | nil =>
    intro n h
    unfold idxOf at h
    by_cases hp : pat.isEmpty
    · rw [if_pos hp] at h
      injection h with h
      subst h
      simp [List.isEmpty_iff.mp hp]
    · rw [if_neg hp] at h; exact absurd h (by simp)
  | cons c cs ih =>
    intro n h
    unfold idxOf at h
    by_cases hp : pat.isPrefixOf (c :: cs)
    · rw [if_pos hp] at h
      injection h with h
      subst h
      have hpre : pat <+: c :: cs := List.isPrefixOf_iff_prefix.mp hp
      simpa using hpre.length_le
    · rw [if_neg hp] at h
      rcases Option.map_eq_some'.mp h with ⟨m, hm, rfl⟩
      have := ih m hm
      simp only [List.length_cons]
      omega

theorem legacyKeywordFallback_mem (ws : List TranscriptionWord)
    (f : FlaggedWord) (hf : f ∈ legacyKeywordFallback ws) :
    f.score = legacyKeywordScore ∧
      f.context = joinSpace (ws.map TranscriptionWord.word) := by
  unfold legacyKeywordFallback at hf
  rcases List.mem_map.mp hf with ⟨g, _, rfl⟩
  exact ⟨rfl, rfl⟩

/-! ## Claim C1 — severity tiers of the lexicon lookup -/

/-- C1, as stated, is false: there is no choice of a proper high-severity
subset and a proper medium-severity subset of the flagged set for which the
spec's three-tier resolution (`specThreeTierLabel`) agrees with the code's
lookup (`keywordLabel`) on every token — the code maps every flagged token to
`"warning"`, so the tier that should yield `toxic` or `profanity` can never
be realized. -/
theorem three_tier_lookup_refuted :
    ¬ ∃ high med : List String,
        (∀ w ∈ high, w ∈ toxicKeywordSet) ∧
        (∀ w ∈ med, w ∈ toxicKeywordSet) ∧
        (∃ w ∈ toxicKeywordSet, w ∉ high) ∧
        (∃ w ∈ toxicKeywordSet, w ∉ med) ∧
        (∀ tok, specThreeTierLabel high med tok = keywordLabel tok) := by
  rintro ⟨high, med, -, -, -, ⟨w0, hw0set, hw0med⟩, hall⟩
  have h := hall w0
  by_cases hh : w0 ∈ high
  · simp only [specThreeTierLabel, keywordLabel, if_pos hh, if_pos hw0set] at h
    exact (by decide : ("toxic" : String) ≠ "warning") (Option.some.inj h)
  · simp only [specThreeTierLabel, keywordLabel, if_neg hh, if_neg hw0med,
      if_pos hw0set] at h
    exact (by decide : ("profanity" : String) ≠ "warning") (Option.some.inj h)

/-- C1 (amended): the lexicon lookup of the Moderation Engine is single-tier:
every span emitted by `moderateWithKeywords` carries the label `"warning"`
and matches a token whose cleaned value is in the flagged set, and a
transcript none of whose cleaned tokens is in the flagged set produces no
spans at all. -/
theorem single_tier_lookup :
    (∀ (t : String) (ts? : Option (List TranscriptionWord)) (f : KeywordSpan),
        f ∈ moderateWithKeywords t ts? →
        f.label = "warning" ∧ cleanWord f.word ∈ toxicKeywordSet) ∧
    (∀ (t : String) (ts? : Option (List TranscriptionWord)),
        (∀ w ∈ tokens t, cleanWord w ∉ toxicKeywordSet) →
        moderateWithKeywords t ts? = []) :=
  ⟨fun t ts? f hf => moderateAux_mem_label ts? (tokens t) 0 f hf,
   fun t ts? h => moderateAux_eq_nil ts? (tokens t) 0 h⟩

/-- Witness for C1 (amended): the span produced for "hate" in
"i hate this" is labelled `warning`, and a clean transcript yields no spans. -/
theorem single_tier_lookup_witness :
    ((⟨"hate", 1, 2, "warning"⟩ : KeywordSpan).label = "warning" ∧
      cleanWord (⟨"hate", 1, 2, "warning"⟩ : KeywordSpan).word ∈ toxicKeywordSet) ∧
    moderateWithKeywords "a nice clear day" none = [] :=
  ⟨single_tier_lookup.1 "i hate this" none _ (by decide),
   single_tier_lookup.2 "a nice clear day" none (by decide)⟩

/-! ## Claim C2 — fixed score of the primary keyword matcher -/

/-- C2, as stated, is false at a concrete input: the keyword span produced by
the legacy keyword fallback of `moderateTranscript` for the word "hate"
carries the fixed score 0.8, not 0.9. -/
theorem keyword_score_counterexample :
    (legacyKeywordFallback [⟨"hate", 0, 1⟩]).map FlaggedWord.score =
      [legacyKeywordScore] ∧
    legacyKeywordScore = 0.8 ∧ legacyKeywordScore ≠ 0.9 := by
  refine ⟨by decide, legacyKeywordScore_eq, fun h => ?_⟩
  have := congrArg Rat.num h
  norm_num [legacyKeywordScore] at this

/-- C2 (amended): every flagged span emitted by the legacy keyword fallback
of `moderateTranscript` carries the fixed score 0.8, independent of which
token matched (the string-path keyword fallback attaches no score field at
all; its display default is also 0.8). -/
theorem keyword_score_fixed (ws : List TranscriptionWord) (f : FlaggedWord)
    (hf : f ∈ legacyKeywordFallback ws) : f.score = 0.8 :=
  (legacyKeywordFallback_mem ws f hf).1.trans legacyKeywordScore_eq

/-- Witness for C2 (amended): the span for "hate" has score 0.8. -/
theorem keyword_score_fixed_witness :
    (⟨"hate", 0, 1, "warning", legacyKeywordScore, "hate"⟩ : FlaggedWord).score
      = 0.8 :=
  keyword_score_fixed [⟨"hate", 0, 1⟩] _ (by decide)

/-! ## Claim C4 — short-transcript rejection -/

/-- C4, as stated, is false at a concrete input: "a b" contains only 2
non-whitespace characters (fewer than 3), yet `processFile` forwards it to
the Moderation Engine, because the code's criterion is
`text.trim().length < 3` and `"a b".trim().length = 3`. -/
theorem short_transcript_counterexample :
    specCountNonWs "a b" = 2 ∧ 2 < 3 ∧
      forwardedToModeration "a b" = true ∧ strLen (jsTrim "a b") = 3 := by
  decide

/-- C4 (amended): after a successful backend call, `processFile` treats a
transcript as a failure ("no speech detected") exactly when its
whitespace-trimmed length is below 3 — equivalently, it forwards the
transcript to the Moderation Engine iff the trimmed length is at least 3
(the empty-text guard is subsumed, since an empty text trims to length 0). -/
theorem short_transcript_rejection (text : String) :
    forwardedToModeration text = true ↔ 3 ≤ strLen (jsTrim text) := by
  unfold forwardedToModeration
  rcases eq_or_ne text "" with rfl | hne
  · simp [jsTrim, strLen]
  · have hb : (text == "") = false := beq_eq_false_iff_ne.mpr hne
    simp [hb]

/-- Witness for C4 (amended): "hello" is forwarded. -/
theorem short_transcript_rejection_witness :
    forwardedToModeration "hello" = true :=
  (short_transcript_rejection "hello").mpr (by decide)

/-! ## Claim C5 — live-speech finalization at the 30-second cap -/

/-- C5, as stated, is false at a concrete input: when no final-result text
accumulated, the forced finalization of `transcribeWithWebSpeech` rejects
with the no-speech error — it does not resolve with the empty string. -/
theorem webspeech_empty_counterexample :
    webSpeechFinalize "" = Except.error webSpeechNoSpeechMsg ∧
      webSpeechFinalize "" ≠ Except.ok "" := by
  constructor
  · rfl
  · intro h
    exact Except.noConfusion ((rfl : webSpeechFinalize "" =
      Except.error webSpeechNoSpeechMsg) ▸ h)

/-- C5 (amended): live recognition is force-stopped by a 30 000 ms timer;
finalization resolves with the trimmed accumulated final-result text when it
is non-empty, and rejects with the no-speech error (rather than resolving
with the empty string) when nothing accumulated. -/
theorem webspeech_finalization (acc : String) :
    (jsTrim acc ≠ "" → webSpeechFinalize acc = Except.ok (jsTrim acc)) ∧
    (jsTrim acc = "" → webSpeechFinalize acc = Except.error webSpeechNoSpeechMsg) ∧
    webSpeechTimeoutMs = 30000 := by
  refine ⟨fun h => ?_, fun h => ?_, rfl⟩
  · simp [webSpeechFinalize, h]
  · simp [webSpeechFinalize, h]

/-- Witness for C5 (amended): a run that accumulated " hello world "
finalizes with "hello world"; a run that accumulated only whitespace rejects
with the no-speech error. -/
theorem webspeech_finalization_witness :
    webSpeechFinalize " hello world " = Except.ok (jsTrim " hello world ") ∧
    webSpeechFinalize "  " = Except.error webSpeechNoSpeechMsg :=
  ⟨(webspeech_finalization " hello world ").1 (by decide),
   (webspeech_finalization "  ").2.1 (by decide)⟩

/-! ## Claim C3 — smart-mode fallback chain -/

theorem smart_no_webspeech (env : SmartEnv)
    (ha : env.useWebSpeechAns = false) :
    (handleSmartTranscribe env).webSpeechInvoked = false := by
  simp only [handleSmartTranscribe]
  cases hE : transcribeAudio (smartModeIsServer env.prefServer env.prefBrowser)
      env.serverRes env.browserRes with
  | ok r => rfl
  | error s =>
    cases hSrv : smartModeIsServer env.prefServer env.prefBrowser with
    | false => simp [ha]
    | true =>
      cases hT : env.tryBrowserAns with
      | false => simp [hT]
      | true =>
        cases hE2 : transcribeAudio false env.serverRes env.browserRetryRes with
        | ok r => simp [hT, hE2]
        | error s2 => simp [hT, hE2, ha]

/-- C3: in smart mode, a remote failure is retried via the local in-browser
model (`transcribeAudio` falls back silently); the live-microphone backend is
only ever started when the corresponding `confirm` dialog was answered in the
affirmative; and when the remote backend raises an error while the local
model succeeds, the orchestrator's final result is exactly the local model's
`TranscriptionResult` with no live-microphone involvement. -/
theorem smart_fallback_chain :
    (∀ (e : String) (r : TranscriptionResult),
        transcribeAudio true (.error e) (.ok r) = .ok r) ∧
    (∀ env : SmartEnv, (handleSmartTranscribe env).webSpeechInvoked = true →
        env.useWebSpeechAns = true) ∧
    (∀ (env : SmartEnv) (e : String) (r : TranscriptionResult),
        env.serverRes = .error e → env.browserRes = .ok r →
        smartModeIsServer env.prefServer env.prefBrowser = true →
        handleSmartTranscribe env = ⟨some r, false⟩) := by
  refine ⟨fun e r => rfl, fun env h => ?_, fun env e r hs hb hm => ?_⟩
  · cases ha : env.useWebSpeechAns
    · rw [smart_no_webspeech env ha] at h
      exact absurd h (by decide)
    · rfl
  · simp only [handleSmartTranscribe]
    rw [hm, hs, hb]
    rfl

/-- Witness for C3: with server preferred, the remote backend failing with a
network error, and the local model succeeding, the outcome is the local
result and no live microphone was started. -/
theorem smart_fallback_chain_witness :
    handleSmartTranscribe
        ⟨true, false, .error "network", .ok ⟨"hello world", []⟩,
          .ok ⟨"x", []⟩, true, true, .ok "y"⟩ =
      ⟨some ⟨"hello world", []⟩, false⟩ :=
  smart_fallback_chain.2.2
    ⟨true, false, .error "network", .ok ⟨"hello world", []⟩,
      .ok ⟨"x", []⟩, true, true, .ok "y"⟩
    "network" ⟨"hello world", []⟩ rfl rfl (by decide)

/-! ## Claim C6 — timestamp fallback of the keyword matcher -/

/-- C6: for every transcript and optional word-timestamp list, a flagged
token at ordinal index `i` is emitted as a span whose start/end come from the
index-aligned timestamp entry when one exists, and are the synthetic values
`i` and `i + 1` when the timestamp list is absent, empty, or too short to
cover index `i`. -/
theorem timestamp_fallback (t : String) (ts? : Option (List TranscriptionWord))
    (i : Nat) (w : String)
    (hw : (tokens t).get? i = some w)
    (hf : cleanWord w ∈ toxicKeywordSet) :
    (⟨w, spanStart ts? i, spanStop ts? i, "warning"⟩ : KeywordSpan) ∈
      moderateWithKeywords t ts? ∧
    (tsLookup ts? i = none →
      spanStart ts? i = (i : ℚ) ∧ spanStop ts? i = (i : ℚ) + 1) ∧
    (∀ e, tsLookup ts? i = some e →
      spanStart ts? i = e.start ∧ spanStop ts? i = e.stop) := by
  refine ⟨?_, fun h => ?_, fun e he => ?_⟩
  · have hmem := mem_moderateAux ts? (tokens t) 0 i w hw hf
    simpa [moderateWithKeywords] using hmem
  · refine ⟨by simp [spanStart, h], ?_⟩
    simp only [spanStop, h]
    push_cast
    ring
  · exact ⟨by simp [spanStart, he], by simp [spanStop, he]⟩

/-- Witness for C6: in "i hate this" with no timestamps, the flagged token
"hate" at index 1 yields a span with synthetic start 1 and end 2. -/
theorem timestamp_fallback_witness :
    ((⟨"hate", spanStart none 1, spanStop none 1, "warning"⟩ : KeywordSpan) ∈
      moderateWithKeywords "i hate this" none) ∧
    (tsLookup none 1 = none →
      spanStart none 1 = (1 : ℚ) ∧ spanStop none 1 = (1 : ℚ) + 1) ∧
    (∀ e, tsLookup none 1 = some e →
      spanStart none 1 = e.start ∧ spanStop none 1 = e.stop) :=
  timestamp_fallback "i hate this" none 1 "hate" (by decide) (by decide)

/-! ## Claim C7 — context field versus ±30-character slice -/

/-- C7, as stated, is false at a concrete input: the span the legacy keyword
path of `moderateTranscript` produces for "hate" carries the entire transcript
as its `context`, which differs from the ±30-character slice around the first
occurrence of the token. -/
theorem context_slice_counterexample :
    (legacyKeywordFallback
        [⟨"hate", 0, 1⟩, ⟨"you", 1, 2⟩, ⟨"and", 2, 3⟩, ⟨"everything", 3, 4⟩,
         ⟨"about", 4, 5⟩, ⟨"this", 5, 6⟩, ⟨"terrible", 6, 7⟩,
         ⟨"broadcast", 7, 8⟩, ⟨"segment", 8, 9⟩]).map FlaggedWord.context =
      ["hate you and everything about this terrible broadcast segment"] ∧
    "hate you and everything about this terrible broadcast segment" ≠
      specContextSlice
        "hate you and everything about this terrible broadcast segment"
        "hate" := by
  exact ⟨by decide, by decide⟩

/-- C7 (amended): spans from the legacy keyword path carry the whole joined
transcript as their `context` field; the ±30-character window around the
first (case-insensitive) occurrence of the raw token is computed by the flag
projection of `App.tsx` as the record's snippet, and because only the first
occurrence is consulted, spans for repeated occurrences of the same flagged
word receive identical snippet text. -/
theorem context_first_occurrence :
    (∀ (ws : List TranscriptionWord) (f : FlaggedWord),
        f ∈ legacyKeywordFallback ws →
        f.context = joinSpace (ws.map TranscriptionWord.word)) ∧
    (∀ (t : String) (ts? : Option (List TranscriptionWord)) (f g : KeywordSpan),
        f ∈ moderateWithKeywords t ts? → g ∈ moderateWithKeywords t ts? →
        f.word = g.word → projSnippet t f.word = projSnippet t g.word) :=
  ⟨fun ws f hf => (legacyKeywordFallback_mem ws f hf).2,
   fun _ _ _ _ _ _ h => by rw [h]⟩

/-- Witness for C7 (amended): the span for "hate" carries the whole
transcript "hate" as context, and the two spans for the repeated word "hate"
in "hate you hate" receive identical snippets. -/
theorem context_first_occurrence_witness :
    (⟨"hate", 0, 1, "warning", legacyKeywordScore, "hate"⟩ : FlaggedWord).context =
      joinSpace (([⟨"hate", 0, 1⟩] : List TranscriptionWord).map
        TranscriptionWord.word) ∧
    projSnippet "hate you hate"
        (⟨"hate", 0, 1, "warning"⟩ : KeywordSpan).word =
      projSnippet "hate you hate"
        (⟨"hate", 2, 3, "warning"⟩ : KeywordSpan).word :=
  ⟨context_first_occurrence.1 [⟨"hate", 0, 1⟩] _ (by decide),
   context_first_occurrence.2 "hate you hate" none _ _ (by decide) (by decide)
     rfl⟩

/-! ## Claim C8 — case and punctuation insensitivity -/

/-- C8: keyword moderation is case- and punctuation-insensitive — two
transcripts whose token lists agree after cleaning (non-alphabetic characters
stripped, lowercased) are flagged at the same token positions with the same
severity tier and the same start/end values. -/
theorem case_punct_insensitivity (t1 t2 : String)
    (ts? : Option (List TranscriptionWord))
    (h : (tokens t1).map cleanWord = (tokens t2).map cleanWord) :
    (moderateWithKeywords t1 ts?).map spanShape =
      (moderateWithKeywords t2 ts?).map spanShape :=
  moderateAux_map_shape ts? (tokens t1) (tokens t2) 0 h

/-- Witness for C8: "This is STUPID!!" and "this is stupid" flag the same
positions with the same label. -/
theorem case_punct_insensitivity_witness :
    (moderateWithKeywords "This is STUPID!!" none).map spanShape =
      (moderateWithKeywords "this is stupid" none).map spanShape :=
  case_punct_insensitivity "This is STUPID!!" "this is stupid" none (by decide)

/-! ## Claim C9 — context slicing is total and in-bounds -/

/-- C9: for every transcript and flagged word (including one at position 0,
and even a word with no occurrence, where `indexOf` yields −1), the context
window bounds computed by `App.tsx` are clamped to `[0, transcript length]`
with start ≤ end, so the slice is always well defined. -/
theorem context_slicing_total (text word : String) :
    0 ≤ ctxStart text word ∧ ctxStart text word ≤ ctxEnd text word ∧
      ctxEnd text word ≤ (strLen text : Int) := by
  rcases hI : idxOf (lowerList word.toList) (lowerList text.toList) with _ | n
  · have h1 : ctxWordIndex text word = -1 := by
      unfold ctxWordIndex jsIndexOf
      rw [hI]
    unfold ctxStart ctxEnd
    rw [h1]
    refine ⟨le_max_left _ _, ?_, min_le_left _ _⟩
    have h2 : (0 : Int) ≤ (strLen text : Int) := Int.ofNat_nonneg _
    have h3 : (0 : Int) ≤ -1 + (strLen word : Int) + 30 := by
      have : (0 : Int) ≤ (strLen word : Int) := Int.ofNat_nonneg _
      omega
    have hmax : max (0 : Int) (-1 - 30) = 0 := by decide
    rw [hmax]
    exact le_min h2 h3
  · have h1 : ctxWordIndex text word = (n : Int) := by
      unfold ctxWordIndex jsIndexOf
      rw [hI]
    have hb := idxOf_le (lowerList word.toList) (lowerList text.toList) n hI
    have hb' : n + strLen word ≤ strLen text := by
      simpa [lowerList, strLen] using hb
    unfold ctxStart ctxEnd
    rw [h1]
    refine ⟨le_max_left _ _, ?_, min_le_left _ _⟩
    apply max_le
    · exact le_min (Int.ofNat_nonneg _) (by omega)
    · exact le_min (by omega) (by omega)

/-! ## Claim C10 — audio-store selection invariant -/

/-- C10, as stated, is false at a concrete input: from the initial store
state, `setSelectedFileId "x"` with an id absent from `audioFiles` leaves
`selectedFileId = some "x"` while `selectedFile` is `none`, breaking the
claimed consistency. -/
theorem store_invariant_counterexample :
    selectionConsistent initialStoreState ∧
    ¬ selectionConsistent (setSelectedFileId (some "x") initialStoreState) ∧
    (setSelectedFileId (some "x") initialStoreState).selectedFileId =
      some "x" ∧
    (setSelectedFileId (some "x") initialStoreState).selectedFile = none := by
  decide

/-- C10 (amended): the invariant "selectedFileId is the id of selectedFile,
both none when nothing is selected" is preserved by `addAudioFile`,
`removeAudioFile`, `updateFileFlags`, `clearFiles`, by `selectFile` whenever
the selected file's id is not the empty string (the JS `file?.id || null`
maps an empty id to null), and by `setSelectedFileId` whenever the id is null
or names a file present in `audioFiles`; it is not preserved by
`setSelectedFileId` with an absent id. -/
theorem store_selection_invariant :
    (∀ (u : String) (f : AudioFileData) (s : AudioStoreState),
        selectionConsistent (addAudioFile u f s)) ∧
    (∀ (i : String) (s : AudioStoreState), selectionConsistent s →
        selectionConsistent (removeAudioFile i s)) ∧
    (∀ s : AudioStoreState, selectionConsistent (selectFile none s)) ∧
    (∀ (f : AudioFileData) (s : AudioStoreState), f.id ≠ "" →
        selectionConsistent (selectFile (some f) s)) ∧
    (∀ s : AudioStoreState, selectionConsistent (setSelectedFileId none s)) ∧
    (∀ (i : String) (s : AudioStoreState) (f : AudioFileData), i ≠ "" →
        s.audioFiles.find? (fun g => g.id = i) = some f →
        selectionConsistent (setSelectedFileId (some i) s)) ∧
    (∀ (i : String) (fw : List FlaggedWord) (s : AudioStoreState),
        selectionConsistent s →
        selectionConsistent (updateFileFlags i fw s)) ∧
    (∀ s : AudioStoreState, selectionConsistent (clearFiles s)) := by
  refine ⟨fun u f s => rfl, fun i s h => ?_, fun s => rfl, fun f s hne => ?_,
    fun s => rfl, fun i s f hne hfind => ?_, fun i fw s h => ?_, fun s => rfl⟩
  · unfold selectionConsistent removeAudioFile
    unfold selectionConsistent at h
    cases hsel : s.selectedFile with
    | none => simp [hsel] at h ⊢; exact h
    | some f =>
      cases hid : (f.id == i) with
      | false => simp [hsel, hid, h]
      | true => simp [hsel, hid]
  · simp [selectionConsistent, selectFile, hne]
  · have hfid : f.id = i := by
      have := List.find?_some hfind
      simpa using this
    simp [selectionConsistent, setSelectedFileId, hne, hfind, hfid]
  · unfold selectionConsistent updateFileFlags
    unfold selectionConsistent at h
    cases hsel : s.selectedFile with
    | none => rw [hsel] at h; simpa [hsel] using h
    | some f =>
      rw [hsel] at h
      by_cases hid : f.id = i
      · simp [hsel, hid, h]
      · simp [hsel, hid, h]

/-- Witness for C10 (amended): removing an unrelated id from a consistent
state, and selecting a present id, both keep the store consistent. -/
theorem store_selection_invariant_witness :
    selectionConsistent
      (removeAudioFile "b" ⟨[⟨"a", "file", none, none⟩],
        some ⟨"a", "file", none, none⟩, some "a"⟩) ∧
    selectionConsistent
      (setSelectedFileId (some "a")
        ⟨[⟨"a", "file", none, none⟩], none, none⟩) :=
  ⟨store_selection_invariant.2.1 "b"
      ⟨[⟨"a", "file", none, none⟩], some ⟨"a", "file", none, none⟩, some "a"⟩
      (by decide),
   store_selection_invariant.2.2.2.2.2.1 "a"
      ⟨[⟨"a", "file", none, none⟩], none, none⟩ ⟨"a", "file", none, none⟩
      (by decide) (by decide)⟩

end VoiceGuardian
